import Mathlib

/-!
Verification development for the constrained-path projection core of hpp-core
(`src/path.cc`, `src/path-projector/recursive-hermite.cc`,
`include/hpp/core/path/hermite.hh`).

The C++ code is shallowly embedded over exact rational arithmetic:
configurations and velocity vectors become lists of rationals, external
collaborators (steering method, configuration projector, midpoint
evaluation) become oracle data carried by the inputs, and fallible
operations return `Except`.
-/

/-- Configurations and tangent vectors (Eigen vectors), componentwise over ℚ. -/
abbrev Vec := List ℚ

/-- Componentwise scalar multiplication of a vector. -/
def Vec.smul (c : ℚ) (v : Vec) : Vec := v.map (fun x => c * x)

/-- Componentwise addition. -/
def Vec.add (a b : Vec) : Vec := List.zipWith (fun x y => x + y) a b

/-- Componentwise subtraction. -/
def Vec.sub (a b : Vec) : Vec := List.zipWith (fun x y => x - y) a b

/-- Error kinds thrown by the embedded code, named after the C++ exception
classes that the sources throw. -/
inductive Err where
  | invalidArgument
  | logicError
  | runtimeError
deriving DecidableEq, Repr

/-- Semantics of an arbitrary (non-`Shift`) `TimeParameterization`: its
`value` and `derivative` methods, as oracle functions. -/
structure TPFun where
  value : ℚ → ℚ
  deriv : ℚ → ℕ → ℚ

/-- A `TimeParameterization`: either an opaque base parameterization or a
`timeParameterization::Shift` wrapper with fields `tp_`, `t_`, `s_`
(path.cc, lines 49-89). -/
inductive TP where
  | base (f : TPFun)
  | shift (tp : TP) (t s : ℚ)

/-- `Shift::value`: `tp_->value(t + t_) + s_`; a base parameterization uses
its own value function. -/
def TP.value : TP → ℚ → ℚ
  | .base f, t => f.value t
  | .shift tp t0 s0, t => TP.value tp (t + t0) + s0

/-- `Shift::derivative`: `tp_->derivative(t + t_, order)` (the output shift
`s_` does not affect derivatives). -/
def TP.deriv : TP → ℚ → ℕ → ℚ
  | .base f, t, order => f.deriv t order
  | .shift tp t0 _, t, order => TP.deriv tp (t + t0) order

/-- Whether a parameterization is a `Shift` (the dynamic cast in
`Shift::create`). -/
def TP.isShift : TP → Bool
  | .shift _ _ _ => true
  | _ => false

/-- Whether a parameterization is a `Shift` directly wrapping another
`Shift` (a non-canonical nesting). -/
def TP.wrapsShift : TP → Bool
  | .shift tp _ _ => TP.isShift tp
  | _ => false

/-- `Shift::create` (path.cc, lines 61-68): if the wrapped parameterization
is itself a `Shift`, fold the offsets instead of nesting. -/
def Shift.create (tp : TP) (t s : ℚ) : TP :=
  match tp with
  | .shift tp0 t0 s0 => .shift tp0 (t0 + t) (s0 + s)
  | tp => .shift tp t s

/-- `Shift::createWithCheck` (path.cc, lines 53-59): a shift by `(0, 0)`
returns the parameterization unchanged. -/
def Shift.createWithCheck (tp : TP) (t s : ℚ) : TP :=
  if t = 0 ∧ s = 0 then tp else Shift.create tp t s

/-- The state of a `Path` relevant to `path.cc`: time range, parameter
range, optional time parameterization, and the underlying curve's
`impl_derivative` as an oracle function (parameter, order) ↦ vector. -/
structure PathM where
  timeRange : ℚ × ℚ
  paramRange : ℚ × ℚ
  timeParam : Option TP
  dImpl : ℚ → ℕ → Vec

/-- `Path::derivative` (path.cc, lines 153-178): through a time
parameterization, order 1 and 2 use the chain rule and any other order
throws `std::invalid_argument`; without one, delegate to
`impl_derivative`. -/
def PathM.derivative (p : PathM) (time : ℚ) (order : ℕ) : Except Err Vec :=
  match p.timeParam with
  | some g =>
    match order with
    | 1 => Except.ok (Vec.smul (TP.deriv g time 1) (p.dImpl (TP.value g time) 1))
    | 2 => Except.ok
        (Vec.add
          (Vec.smul (TP.deriv g time 1 * TP.deriv g time 1) (p.dImpl (TP.value g time) 2))
          (Vec.smul (TP.deriv g time 2) (p.dImpl (TP.value g time) 1)))
    | _ => Except.error Err.invalidArgument
  | none => Except.ok (p.dImpl time order)

/-- `Path::serialize` (path.cc, lines 286-302): saving a path that carries a
time parameterization throws `std::logic_error`; everything else is
archived without error. -/
def PathM.serialize (p : PathM) (isSaving : Bool) : Except Err Unit :=
  if isSaving && p.timeParam.isSome then Except.error Err.logicError
  else Except.ok ()

/-- Modelled from the spec: `Path::timeParameterization(tp, interval)` and
`Path::timeRange(interval)` are declared in `path.hh`, which is not among
the sources; per the spec invariant, "`paramRange` is always the image of
`timeRange` under `timeParameterization`", attaching a parameterization
with a time interval recomputes `paramRange` as the image of the
interval. -/
def PathM.setTimeParam (p : PathM) (tp : TP) (tr : ℚ × ℚ) : PathM :=
  { p with timeParam := some tp, timeRange := tr,
           paramRange := (TP.value tp tr.1, TP.value tp tr.2) }

/-- `Path::extract` (path.cc, lines 180-226). `extImpl` stands for the
virtual `impl_extract` of the dynamic type of the path. With a time
parameterization attached, the sub-interval is mapped through it, the
shift offsets are computed — but the `Shift::createWithCheck` result is
discarded, exactly as in the source (line 216) — and an unshifted copy of
the original parameterization is attached to the result. -/
def Path.extract (p : PathM) (extImpl : ℚ × ℚ → PathM) (sub : ℚ × ℚ) : PathM :=
  match p.timeParam with
  | some g =>
    let paramInterval : ℚ × ℚ := (TP.value g sub.1, TP.value g sub.2)
    let res := extImpl paramInterval
    let tsi : ℚ × ℚ × (ℚ × ℚ) :=
      if sub.2 < sub.1 then
        let s := res.paramRange.1 - paramInterval.2
        if s ≠ 0 then (sub.2, s, ((0 : ℚ), sub.1 - sub.2))
        else ((0 : ℚ), s, (sub.2, sub.1))
      else
        let s := res.paramRange.1 - paramInterval.1
        if s ≠ 0 then (sub.1, s, ((0 : ℚ), sub.2 - sub.1))
        else ((0 : ℚ), s, sub)
    -- computed and discarded, as in the source:
    let _dropped := Shift.createWithCheck g tsi.1 tsi.2.1
    PathM.setTimeParam res g tsi.2.2
  | none => extImpl sub

/-- The state of a `path::Hermite` relevant to `hermite.hh`: the time range
and the four Bernstein control-point rows `parameters_.row(0..3)`, plus
the cached `hermiteLength_`. -/
structure HermiteM where
  timeRange : ℚ × ℚ
  p0 : Vec
  p1 : Vec
  p2 : Vec
  p3 : Vec
  hermiteLength : ℚ

/-- `Hermite::v0` setter (hermite.hh, lines 122-125):
`parameters_.row(1) = speed/3 * (timeRange().second - timeRange().first)`
and the cached length is invalidated to `-1`. -/
def HermiteM.setV0 (h : HermiteM) (speed : Vec) : HermiteM :=
  { h with p1 := Vec.smul ((h.timeRange.2 - h.timeRange.1) / 3) speed,
           hermiteLength := -1 }

/-- `Hermite::v1` setter (hermite.hh, lines 127-130):
`parameters_.row(2) = parameters_.row(3) - speed/3 * (timeRange length)`
and the cached length is invalidated to `-1`. -/
def HermiteM.setV1 (h : HermiteM) (speed : Vec) : HermiteM :=
  { h with p2 := Vec.sub h.p3 (Vec.smul ((h.timeRange.2 - h.timeRange.1) / 3) speed),
           hermiteLength := -1 }

/-- `Hermite::v0` getter (hermite.hh, lines 132-138):
`3 * (row(1) - row(0)) / (timeRange length)`. -/
def HermiteM.getV0 (h : HermiteM) : Vec :=
  Vec.smul (3 / (h.timeRange.2 - h.timeRange.1)) (Vec.sub h.p1 h.p0)

/-- `Hermite::v1` getter (hermite.hh, line 140):
`3 * (row(3) - row(2)) / (timeRange length)`. -/
def HermiteM.getV1 (h : HermiteM) : Vec :=
  Vec.smul (3 / (h.timeRange.2 - h.timeRange.1)) (Vec.sub h.p3 h.p2)

/-- `RecursiveHermite::RecursiveHermite` (recursive-hermite.cc, lines 63-72):
`beta` outside `[0.5, 1]` or a non-Hermite steering method throw
`std::invalid_argument`; otherwise the projector stores `(M, beta)`. -/
def RecursiveHermite.construct (M beta : ℚ) (smIsHermite : Bool) :
    Except Err (ℚ × ℚ) :=
  if beta < 1 / 2 ∨ 1 < beta then Except.error Err.invalidArgument
  else if ¬ smIsHermite then Except.error Err.invalidArgument
  else Except.ok (M, beta)

/-- Whether a construction attempt succeeded. -/
def exceptOk {ε α : Type} : Except ε α → Bool
  | .ok _ => true
  | .error _ => false

/-- A Hermite piece together with the oracle answers of the external
collaborators along its subdivision: `len` is `hermiteLength()` after
`computeHermiteLength()`, `tlen` is `length()` (time-range extent).
`stop` is a piece whose midpoint evaluation `eval(t, success)` reports
failure; `bis` carries the projected midpoint `q1` and the two steered
child pieces. -/
inductive HTree where
  | stop (q0 q2 : Vec) (len tlen : ℚ)
  | bis (q0 q2 : Vec) (len tlen : ℚ) (q1 : Vec) (l r : HTree)
deriving DecidableEq, Repr

/-- The `hermiteLength()` of a piece. -/
def HTree.len : HTree → ℚ
  | .stop _ _ len _ => len
  | .bis _ _ len _ _ _ _ => len

/-- The `length()` (time-range extent) of a piece. -/
def HTree.tlen : HTree → ℚ
  | .stop _ _ _ tl => tl
  | .bis _ _ _ tl _ _ _ => tl

/-- `RecursiveHermite::recurse` (recursive-hermite.cc, lines 218-269).
Returns the boolean result together with the pieces appended to `proj`.
A piece below the acceptance threshold is appended and accepted; a failed
midpoint evaluation fails the branch; otherwise the children are checked
against the contraction threshold `beta * hermiteLength` and recursed
into, left first, short-circuiting exactly as the source does. -/
def RecursiveHermite.recurse (beta acceptThr : ℚ) : HTree → Bool × List HTree
  | .stop q0 q2 len tl =>
    if len < acceptThr then (true, [.stop q0 q2 len tl])
    else (false, [])
  | .bis q0 q2 len tl q1 l r =>
    if len < acceptThr then (true, [.bis q0 q2 len tl q1 l r])
    else
      let stopThr := beta * len
      let lStop : Bool := decide (stopThr < HTree.len l)
      let rStop : Bool := decide (stopThr < HTree.len r)
      let stop : Bool := rStop || lStop
      if lStop then (false, [])
      else
        let resL := RecursiveHermite.recurse beta acceptThr l
        if resL.1 = false then (false, resL.2)
        else if stop then (false, resL.2)
        else
          let resR := RecursiveHermite.recurse beta acceptThr r
          (resR.1, resL.2 ++ resR.2)

/-- The data of a `ConfigProjector` read by `project`: its `dimension()`
and `errorThreshold()`. -/
structure CPM where
  dimension : ℕ
  errorThreshold : ℚ
deriving DecidableEq, Repr

/-- The data of a path's `ConstraintSet` read by `project`: whether
`isSatisfied(q2)` holds for the end configuration (oracle) and the
optional config projector. -/
structure ConstraintSetM where
  endSatisfied : Bool
  configProjector : Option CPM
deriving DecidableEq, Repr

/-- A non-vector input path as seen by `RecursiveHermite::project`:
endpoint configurations, the attached constraint set, the Hermite
candidate pieces spanning it (obtained from the path itself or from the
steering oracle, with their computed lengths), the start of its time
range, and its `length()`. -/
structure ProjPath where
  initial : Vec
  endCfg : Vec
  constraints : Option ConstraintSetM
  pieces : List HTree
  tmin : ℚ
  plen : ℚ
deriving DecidableEq, Repr

/-- The value assigned to the output argument `proj`: the input path
itself, a `PathVector` of Hermite pieces, a single piece, the degenerate
extraction `path->extract((tmin, tmin))`, or a `PathVector` of projected
parts (the `impl_apply` vector branch). -/
inductive ResP where
  | orig (p : ProjPath)
  | vec (ts : List HTree)
  | single (t : HTree)
  | degen (q : Vec)
  | pvec (rs : List ResP)

mutual

/-- `length()` of a produced part, used by the `impl_apply` vector branch. -/
def ResP.plen : ResP → ℚ
  | .orig p => p.plen
  | .vec ts => (ts.map HTree.tlen).sum
  | .single t => HTree.tlen t
  | .degen _ => 0
  | .pvec rs => ResP.plenList rs

/-- Total `length()` of a list of parts. -/
def ResP.plenList : List ResP → ℚ
  | [] => 0
  | r :: rs => ResP.plen r + ResP.plenList rs

end

/-- The loop of `RecursiveHermite::project` over the candidate pieces
(recursive-hermite.cc, lines 163-178): a piece below the threshold is
appended as-is, otherwise `recurse` subdivides it and its result is
concatenated; the loop breaks on the first failure. -/
def RecursiveHermite.projectLoop (beta thr : ℚ) : List HTree → Bool × List HTree
  | [] => (true, [])
  | t :: ts =>
    if HTree.len t < thr then
      let rest := RecursiveHermite.projectLoop beta thr ts
      (rest.1, t :: rest.2)
    else
      let r := RecursiveHermite.recurse beta thr t
      if r.1 then
        let rest := RecursiveHermite.projectLoop beta thr ts
        (rest.1, r.2 ++ rest.2)
      else (false, r.2)

/-- The acceptance threshold of `RecursiveHermite::project`
(recursive-hermite.cc, line 130, and the copy in path.cc, line 463):
`2 * cp->errorThreshold() / M_`. -/
def RecursiveHermite.acceptThr (M errorThreshold : ℚ) : ℚ :=
  2 * errorThreshold / M

/-- The acceptance threshold of the revised `RecursiveHermite::project`
(recursive-hermite.cc, line 444): `2 * cp->errorThreshold() / 2` — the
scale constant `M_` is not used. -/
def RecursiveHermite.acceptThrF (M errorThreshold : ℚ) : ℚ :=
  2 * errorThreshold / 2

/-- `RecursiveHermite::project` (recursive-hermite.cc, lines 112-216, and
the copy in path.cc, lines 444-546): pass-through without constraints or
with a zero-dimension projector, immediate failure (leaving `proj`
unassigned, `none`) when the end configuration violates the constraints,
and otherwise the piece loop with threshold `2 * errorThreshold / M`; on
failure the best-effort prefix is returned (degenerate extraction for
zero pieces, the piece itself for one, the vector otherwise). -/
def RecursiveHermite.project (M beta : ℚ) (p : ProjPath) : Bool × Option ResP :=
  match p.constraints with
  | none => (true, some (ResP.orig p))
  | some cs =>
    if cs.endSatisfied = false then (false, none)
    else
      match cs.configProjector with
      | none => (true, some (ResP.orig p))
      | some cp =>
        if cp.dimension = 0 then (true, some (ResP.orig p))
        else
          let thr := RecursiveHermite.acceptThr M cp.errorThreshold
          let sr := RecursiveHermite.projectLoop beta thr p.pieces
          if sr.1 then (true, some (ResP.vec sr.2))
          else
            match sr.2 with
            | [] => (false, some (ResP.degen p.initial))
            | [t] => (false, some (ResP.single t))
            | ts => (false, some (ResP.vec ts))

/-- The revised `RecursiveHermite::project` (recursive-hermite.cc, lines
422-552): identical control flow, except that the acceptance threshold is
`2 * cp->errorThreshold() / 2` (line 444) — `M_` is ignored. (The added
path-validation call only logs and does not affect the result.) -/
def RecursiveHermite.projectF (M beta : ℚ) (p : ProjPath) : Bool × Option ResP :=
  match p.constraints with
  | none => (true, some (ResP.orig p))
  | some cs =>
    if cs.endSatisfied = false then (false, none)
    else
      match cs.configProjector with
      | none => (true, some (ResP.orig p))
      | some cp =>
        if cp.dimension = 0 then (true, some (ResP.orig p))
        else
          let thr := RecursiveHermite.acceptThrF M cp.errorThreshold
          let sr := RecursiveHermite.projectLoop beta thr p.pieces
          if sr.1 then (true, some (ResP.vec sr.2))
          else
            match sr.2 with
            | [] => (false, some (ResP.degen p.initial))
            | [t] => (false, some (ResP.single t))
            | ts => (false, some (ResP.vec ts))

/-- The input of `RecursiveHermite::impl_apply`: either a plain path or a
`PathVector` of sub-paths. -/
inductive PathIn where
  | simple (p : ProjPath)
  | vector (ps : List PathIn)

mutual

/-- `RecursiveHermite::impl_apply` (recursive-hermite.cc, lines 74-110, and
the copy in path.cc, lines 406-442): a plain path without constraints or
config projector passes through; otherwise it is sent to `project`; a
`PathVector` is processed piecewise by the loop. The second component is
the value assigned to `proj` (`none` when it is left unassigned). -/
def RecursiveHermite.impl_apply (M beta : ℚ) : PathIn → Bool × Option ResP
  | .simple p =>
    match p.constraints with
    | none => (true, some (ResP.orig p))
    | some cs =>
      match cs.configProjector with
      | none => (true, some (ResP.orig p))
      | some _ => RecursiveHermite.project M beta p
  | .vector ps => RecursiveHermite.applyLoop M beta 0 none [] ps

/-- The loop of the `impl_apply` vector branch (recursive-hermite.cc,
lines 91-103): apply to each sub-path; on failure, append the partial
part only when it is non-null and has positive length or is the first
one, then break; on success append it and continue. The C++ variable
`part` persists across iterations, so a failed apply that does not assign
`proj` leaves the previous part in place. -/
def RecursiveHermite.applyLoop (M beta : ℚ) (i : ℕ) (part : Option ResP)
    (acc : List ResP) : List PathIn → Bool × Option ResP
  | [] => (true, some (ResP.pvec acc))
  | q :: qs =>
    let r := RecursiveHermite.impl_apply M beta q
    let part2 := match r.2 with
      | some x => some x
      | none => part
    if r.1 = false then
      let acc2 := match part2 with
        | some x => if 0 < ResP.plen x ∨ i = 0 then acc ++ [x] else acc
        | none => acc
      (false, some (ResP.pvec acc2))
    else
      -- appendPath(part): on success proj is always assigned, so part2 is
      -- `some`; appending `part2.toList` appends it exactly when non-null.
      RecursiveHermite.applyLoop M beta (i + 1) part2 (acc ++ part2.toList) qs

end

/-- The child construction of `RecursiveHermite::recurse`
(recursive-hermite.cc, lines 236-250): `vHalf = velocity(t) / 2`; the left
child steered from `q0` to `q1` receives `v0 = parent.v0() / 2` and
`v1 = vHalf`; the right child steered from `q1` to `q2` receives
`v0 = vHalf` and `v1 = parent.v1() / 2`. `leftS` and `rightS` are the
pieces returned by the steering oracle, `vmid` is `velocity(t)`. -/
def RecursiveHermite.recurseChildren (parent leftS rightS : HermiteM)
    (vmid : Vec) : HermiteM × HermiteM :=
  let vHalf := Vec.smul (1 / 2) vmid
  (HermiteM.setV1 (HermiteM.setV0 leftS (Vec.smul (1 / 2) (HermiteM.getV0 parent))) vHalf,
   HermiteM.setV1 (HermiteM.setV0 rightS vHalf) (Vec.smul (1 / 2) (HermiteM.getV1 parent)))

/-- The child construction of the revised `RecursiveHermite::recurse`
(recursive-hermite.cc, lines 566-592): the children are steered over the
actual time sub-intervals `[tmin, t]` and `[t, tmax]`, `vHalf =
velocity(t)` is not halved, the left child receives `v0 = parent.v0()`
and `v1 = vHalf`, the right child `v0 = vHalf` and `v1 = parent.v1()`. -/
def RecursiveHermite.recurseChildrenF (parent leftS rightS : HermiteM)
    (vmid : Vec) : HermiteM × HermiteM :=
  let vHalf := vmid
  (HermiteM.setV1 (HermiteM.setV0 leftS (HermiteM.getV0 parent)) vHalf,
   HermiteM.setV1 (HermiteM.setV0 rightS vHalf) (HermiteM.getV1 parent))

/-- A sample base time parameterization `g(t) = 2 t + 1` with `g' = 2`. -/
def egTPF : TPFun := ⟨fun t => 2 * t + 1, fun _ k => if k = 1 then 2 else 0⟩

/-- The sample parameterization wrapped as a `TimeParameterization`. -/
def egTP : TP := TP.base egTPF

/-- A sample path over time range `[0, 10]` carrying `egTP`. -/
def egPath : PathM := ⟨(0, 10), (1, 21), some egTP, fun _ _ => []⟩

/-- A sample virtual `impl_extract` that, as the comment at path.cc line 186
anticipates, returns a path whose `paramRange` has been shifted to start
at `0`. -/
def egExt : ℚ × ℚ → PathM :=
  fun pint => ⟨(0, pint.2 - pint.1), (0, pint.2 - pint.1), none, fun _ _ => []⟩

/-- A sample underlying-curve derivative oracle. -/
def dEx : ℚ → ℕ → Vec := fun s k => [s + k]

/-- A Hermite candidate piece of `hermiteLength` 3/4 whose midpoint
evaluation would fail. -/
def c1piece : HTree := HTree.stop [0] [1] (3 / 4) 1

/-- A constrained input path (end configuration satisfied, config projector
of dimension 1 and error threshold 1) decomposing into `c1piece`. -/
def c1path : ProjPath := ⟨[0], [1], some ⟨true, some ⟨1, 1⟩⟩, [c1piece], 0, 1⟩

/-- A constrained input path whose end configuration violates its
constraints (`isSatisfied(q2)` is false). -/
def c10path : ProjPath := ⟨[0], [1], some ⟨false, some ⟨1, 1⟩⟩, [], 0, 1⟩

/-- A parent Hermite piece over `[0, 1]` with `v0() = [3]` and
`v1() = [6]`. -/
def parentEx : HermiteM := ⟨(0, 1), [0], [1], [0], [2], 5⟩

/-- A steered left child over the sub-interval `[0, 1/2]`. -/
def leftEx : HermiteM := ⟨(0, 1 / 2), [0], [0], [0], [4], -1⟩

/-- A steered right child over the sub-interval `[1/2, 1]`. -/
def rightEx : HermiteM := ⟨(1 / 2, 1), [0], [0], [0], [4], -1⟩


/-- Scalar multiplications compose componentwise. -/
theorem vec_smul_smul (a b : ℚ) (v : Vec) :
    Vec.smul a (Vec.smul b v) = Vec.smul (a * b) v := by
  unfold Vec.smul
  rw [List.map_map]
  congr 1
  funext x
  simp [mul_assoc]

/-- Scaling by one is the identity. -/
theorem vec_smul_one (v : Vec) : Vec.smul 1 v = v := by
  simp [Vec.smul]

/-- Subtracting a zero vector of matching length is the identity. -/
theorem vec_sub_replicate_zero (v : Vec) :
    Vec.sub v (List.replicate v.length 0) = v := by
  induction v with
  | nil => rfl
  | cons x xs ih =>
    simp only [Vec.sub, List.length_cons, List.replicate_succ, List.zipWith_cons_cons,
      sub_zero, List.cons.injEq, true_and]
    exact ih

/-- `a - (a - x) = x` componentwise, for vectors of equal length. -/
theorem vec_sub_sub_cancel (a x : Vec) (h : a.length = x.length) :
    Vec.sub a (Vec.sub a x) = x := by
  induction a generalizing x with
  | nil =>
    cases x with
    | nil => rfl
    | cons y ys => simp at h
  | cons b bs ih =>
    cases x with
    | nil => simp at h
    | cons y ys =>
      simp only [List.length_cons, Nat.succ.injEq] at h
      simp only [Vec.sub, List.zipWith_cons_cons, sub_sub_cancel, List.cons.injEq, true_and]
      exact ih ys h

/-- A scaled vector keeps its length. -/
theorem vec_smul_length (c : ℚ) (v : Vec) : (Vec.smul c v).length = v.length := by
  simp [Vec.smul]

/-- Setting `v1` does not change the data read by the `v0` getter. -/
theorem getV0_setV1 (h : HermiteM) (v : Vec) :
    HermiteM.getV0 (HermiteM.setV1 h v) = HermiteM.getV0 h := rfl

/-- Setting `v0` does not change the data read by the `v1` getter. -/
theorem getV1_setV0 (h : HermiteM) (v : Vec) :
    HermiteM.getV1 (HermiteM.setV0 h v) = HermiteM.getV1 h := rfl

/-- Round trip for `v0`: with the constructor invariant `row(0) = 0` and a
nondegenerate time range, the getter returns what the setter stored. -/
theorem getV0_setV0 (h : HermiteM) (w : Vec)
    (hL : h.timeRange.2 - h.timeRange.1 ≠ 0)
    (hp0 : h.p0 = List.replicate w.length 0) :
    HermiteM.getV0 (HermiteM.setV0 h w) = w := by
  unfold HermiteM.getV0 HermiteM.setV0
  simp only
  rw [hp0]
  have hlen : (Vec.smul ((h.timeRange.2 - h.timeRange.1) / 3) w).length = w.length :=
    vec_smul_length _ _
  rw [← hlen, vec_sub_replicate_zero, vec_smul_smul]
  have : 3 / (h.timeRange.2 - h.timeRange.1) * ((h.timeRange.2 - h.timeRange.1) / 3) = 1 := by
    field_simp
  rw [this, vec_smul_one]

/-- Round trip for `v1`: with matching row lengths and a nondegenerate time
range, the getter returns what the setter stored. -/
theorem getV1_setV1 (h : HermiteM) (w : Vec)
    (hL : h.timeRange.2 - h.timeRange.1 ≠ 0)
    (hp3 : h.p3.length = w.length) :
    HermiteM.getV1 (HermiteM.setV1 h w) = w := by
  unfold HermiteM.getV1 HermiteM.setV1
  simp only
  have hlen : h.p3.length = (Vec.smul ((h.timeRange.2 - h.timeRange.1) / 3) w).length := by
    rw [vec_smul_length]; exact hp3
  rw [vec_sub_sub_cancel _ _ hlen, vec_smul_smul]
  have : 3 / (h.timeRange.2 - h.timeRange.1) * ((h.timeRange.2 - h.timeRange.1) / 3) = 1 := by
    field_simp
  rw [this, vec_smul_one]

/-- C9: Shift composition is canonicalizing — `Shift::create` over a
parameterization that is already a `Shift` with offsets `(t0, s0)` yields
a single `Shift` over the original inner parameterization with offsets
`(t0 + t, s0 + s)` (so it nests only if the input was already nested, and
never wraps the given `Shift`), and `Shift::createWithCheck` with both
offsets zero returns the inner parameterization unchanged. -/
theorem Shift.create_canonicalizes :
    (∀ (inner : TP) (t0 s0 t s : ℚ),
        Shift.create (TP.shift inner t0 s0) t s = TP.shift inner (t0 + t) (s0 + s))
    ∧ (∀ (inner : TP) (t0 s0 t s : ℚ),
        TP.wrapsShift (Shift.create (TP.shift inner t0 s0) t s) = TP.isShift inner)
    ∧ (∀ tp : TP, Shift.createWithCheck tp 0 0 = tp) := by
  refine ⟨fun inner t0 s0 t s => rfl, fun inner t0 s0 t s => rfl, fun tp => ?_⟩
  simp [Shift.createWithCheck]

/-- C8: serializing (saving) a `Path` that carries a time parameterization
fails with a logic error, and saving one without a time parameterization
does not raise this error. -/
theorem Path.serialize_rejects_time_parameterization :
    (∀ (tr pr : ℚ × ℚ) (g : TP) (d : ℚ → ℕ → Vec),
        PathM.serialize ⟨tr, pr, some g, d⟩ true = Except.error Err.logicError)
    ∧ (∀ (tr pr : ℚ × ℚ) (d : ℚ → ℕ → Vec),
        PathM.serialize ⟨tr, pr, none, d⟩ true = Except.ok ()) :=
  ⟨fun _ _ _ _ => rfl, fun _ _ _ => rfl⟩

/-- C6: through a time parameterization `g`, `Path::derivative` returns
`f'(g(t)) * g'(t)` for order 1 and `f''(g(t)) * g'(t)^2 + f'(g(t)) * g''(t)`
for order 2, and fails with an invalid-argument error for every order
greater than 2. -/
theorem Path.derivative_chain_rule (tr pr : ℚ × ℚ) (g : TP) (d : ℚ → ℕ → Vec) (t : ℚ) :
    PathM.derivative ⟨tr, pr, some g, d⟩ t 1
        = Except.ok (Vec.smul (TP.deriv g t 1) (d (TP.value g t) 1))
    ∧ PathM.derivative ⟨tr, pr, some g, d⟩ t 2
        = Except.ok (Vec.add
            (Vec.smul (TP.deriv g t 1 * TP.deriv g t 1) (d (TP.value g t) 2))
            (Vec.smul (TP.deriv g t 2) (d (TP.value g t) 1)))
    ∧ ∀ order : ℕ, 2 < order →
        PathM.derivative ⟨tr, pr, some g, d⟩ t order = Except.error Err.invalidArgument := by
  refine ⟨rfl, rfl, fun order hord => ?_⟩
  obtain ⟨m, rfl⟩ : ∃ m, order = m + 3 := ⟨order - 3, by omega⟩
  rfl

/-- Witness for C6 at a concrete path: `g(t) = 2 t + 1`, `f'(s) = [s + 1]`,
evaluated at `t = 2` for orders 1 and 3. -/
theorem Path.derivative_chain_rule_witness :
    PathM.derivative ⟨(0, 1), (0, 1), some egTP, dEx⟩ 2 1 = Except.ok [12]
    ∧ PathM.derivative ⟨(0, 1), (0, 1), some egTP, dEx⟩ 2 3 = Except.error Err.invalidArgument := by
  constructor
  · rw [(Path.derivative_chain_rule (0, 1) (0, 1) egTP dEx 2).1]
    norm_num [egTP, egTPF, dEx, Vec.smul, TP.deriv, TP.value]
  · exact (Path.derivative_chain_rule (0, 1) (0, 1) egTP dEx 2).2.2 3 (by norm_num)

/-- C5: constructing a `RecursiveHermite` projector fails if and only if
`beta` lies outside `[0.5, 1]` or the steering method is not Hermite;
in particular `beta = 0.3` and `beta = 1.2` fail while `beta = 0.5` and
`beta = 1.0` succeed with a Hermite steering method. -/
theorem RecursiveHermite.construct_beta_bounds :
    (∀ (M beta : ℚ) (b : Bool),
        exceptOk (RecursiveHermite.construct M beta b)
          = (decide (1 / 2 ≤ beta) && (decide (beta ≤ 1) && b)))
    ∧ exceptOk (RecursiveHermite.construct 1 (3 / 10) true) = false
    ∧ exceptOk (RecursiveHermite.construct 1 (6 / 5) true) = false
    ∧ exceptOk (RecursiveHermite.construct 1 (1 / 2) true) = true
    ∧ exceptOk (RecursiveHermite.construct 1 1 true) = true := by
  refine ⟨fun M beta b => ?_,
    by norm_num [RecursiveHermite.construct, exceptOk],
    by norm_num [RecursiveHermite.construct, exceptOk],
    by norm_num [RecursiveHermite.construct, exceptOk],
    by norm_num [RecursiveHermite.construct, exceptOk]⟩
  unfold RecursiveHermite.construct
  by_cases h1 : beta < 1 / 2
  · rw [if_pos (Or.inl h1), decide_eq_false (not_le.mpr h1)]
    simp [exceptOk]
  · by_cases h2 : 1 < beta
    · rw [if_pos (Or.inr h2), decide_eq_false (not_le.mpr h2)]
      simp [exceptOk]
    · rw [if_neg (not_or.mpr ⟨h1, h2⟩), decide_eq_true (not_lt.mp h1),
        decide_eq_true (not_lt.mp h2)]
      cases b <;> simp [exceptOk]

/-- C7: the `v0`/`v1` setters of a Hermite path rescale the stored control
point by the time-range length (`speed / 3 * (timeRange.second -
timeRange.first)`) and reset the cached `hermiteLength` to the unknown
sentinel `-1`; consequently (given the constructor invariant `row(0) = 0`
and a nondegenerate time range) the `v0` getter returns exactly the
vector passed to the `v0` setter, and likewise for `v1`. -/
theorem Hermite.velocity_setter_roundtrip (h : HermiteM) (w : Vec)
    (hL : h.timeRange.2 - h.timeRange.1 ≠ 0)
    (hp0 : h.p0 = List.replicate w.length 0)
    (hp3 : h.p3.length = w.length) :
    (HermiteM.setV0 h w).p1 = Vec.smul ((h.timeRange.2 - h.timeRange.1) / 3) w
    ∧ (HermiteM.setV0 h w).hermiteLength = -1
    ∧ (HermiteM.setV1 h w).p2
        = Vec.sub h.p3 (Vec.smul ((h.timeRange.2 - h.timeRange.1) / 3) w)
    ∧ (HermiteM.setV1 h w).hermiteLength = -1
    ∧ HermiteM.getV0 (HermiteM.setV0 h w) = w
    ∧ HermiteM.getV1 (HermiteM.setV1 h w) = w :=
  ⟨rfl, rfl, rfl, rfl, getV0_setV0 h w hL hp0, getV1_setV1 h w hL hp3⟩

/-- Witness for C7 on a concrete two-dimensional Hermite path over
`[0, 2]`. -/
theorem Hermite.velocity_setter_roundtrip_witness :
    HermiteM.getV0 (HermiteM.setV0 ⟨(0, 2), [0, 0], [9, 9], [9, 9], [5, 6], 7⟩ [1, 2]) = [1, 2]
    ∧ (HermiteM.setV0 ⟨(0, 2), [0, 0], [9, 9], [9, 9], [5, 6], 7⟩ [1, 2]).hermiteLength = -1 :=
  ⟨(Hermite.velocity_setter_roundtrip ⟨(0, 2), [0, 0], [9, 9], [9, 9], [5, 6], 7⟩ [1, 2]
      (by norm_num) (by simp) (by simp)).2.2.2.2.1,
   (Hermite.velocity_setter_roundtrip ⟨(0, 2), [0, 0], [9, 9], [9, 9], [5, 6], 7⟩ [1, 2]
      (by norm_num) (by simp) (by simp)).2.1⟩

/-- C4 (amended): in the `[0, 1]`-rescaled `recurse` (recursive-hermite.cc,
lines 236-250), the children inherit halved velocities exactly as
claimed: left gets `v0 = parent.v0/2` and `v1 = velocity(mid)/2`, right
gets `v0 = velocity(mid)/2` and `v1 = parent.v1/2`; in the
timeRange-preserving `recurse` (lines 566-592) the children are built
over the actual time sub-intervals and inherit the parent's outer
boundary velocity and the midpoint tangent unhalved. -/
theorem RecursiveHermite.recurse_children_velocities
    (parent leftS rightS : HermiteM) (vmid : Vec) (n : ℕ)
    (hlL : leftS.timeRange.2 - leftS.timeRange.1 ≠ 0)
    (hrL : rightS.timeRange.2 - rightS.timeRange.1 ≠ 0)
    (hlp0 : leftS.p0 = List.replicate n 0)
    (hrp0 : rightS.p0 = List.replicate n 0)
    (hlp3 : leftS.p3.length = n)
    (hrp3 : rightS.p3.length = n)
    (hv0 : (HermiteM.getV0 parent).length = n)
    (hv1 : (HermiteM.getV1 parent).length = n)
    (hvm : vmid.length = n) :
    HermiteM.getV0 (RecursiveHermite.recurseChildren parent leftS rightS vmid).1
        = Vec.smul (1 / 2) (HermiteM.getV0 parent)
    ∧ HermiteM.getV1 (RecursiveHermite.recurseChildren parent leftS rightS vmid).1
        = Vec.smul (1 / 2) vmid
    ∧ HermiteM.getV0 (RecursiveHermite.recurseChildren parent leftS rightS vmid).2
        = Vec.smul (1 / 2) vmid
    ∧ HermiteM.getV1 (RecursiveHermite.recurseChildren parent leftS rightS vmid).2
        = Vec.smul (1 / 2) (HermiteM.getV1 parent)
    ∧ HermiteM.getV0 (RecursiveHermite.recurseChildrenF parent leftS rightS vmid).1
        = HermiteM.getV0 parent
    ∧ HermiteM.getV1 (RecursiveHermite.recurseChildrenF parent leftS rightS vmid).1 = vmid
    ∧ HermiteM.getV0 (RecursiveHermite.recurseChildrenF parent leftS rightS vmid).2 = vmid
    ∧ HermiteM.getV1 (RecursiveHermite.recurseChildrenF parent leftS rightS vmid).2
        = HermiteM.getV1 parent := by
  refine ⟨?_, ?_, ?_, ?_, ?_, ?_, ?_, ?_⟩
  · show HermiteM.getV0 (HermiteM.setV1
        (HermiteM.setV0 leftS (Vec.smul (1 / 2) (HermiteM.getV0 parent)))
        (Vec.smul (1 / 2) vmid)) = _
    rw [getV0_setV1]
    exact getV0_setV0 leftS _ hlL (by rw [vec_smul_length, hv0]; exact hlp0)
  · show HermiteM.getV1 (HermiteM.setV1
        (HermiteM.setV0 leftS (Vec.smul (1 / 2) (HermiteM.getV0 parent)))
        (Vec.smul (1 / 2) vmid)) = _
    exact getV1_setV1 _ _ hlL (by rw [vec_smul_length, hvm]; exact hlp3)
  · show HermiteM.getV0 (HermiteM.setV1
        (HermiteM.setV0 rightS (Vec.smul (1 / 2) vmid))
        (Vec.smul (1 / 2) (HermiteM.getV1 parent))) = _
    rw [getV0_setV1]
    exact getV0_setV0 rightS _ hrL (by rw [vec_smul_length, hvm]; exact hrp0)
  · show HermiteM.getV1 (HermiteM.setV1
        (HermiteM.setV0 rightS (Vec.smul (1 / 2) vmid))
        (Vec.smul (1 / 2) (HermiteM.getV1 parent))) = _
    exact getV1_setV1 _ _ hrL (by rw [vec_smul_length, hv1]; exact hrp3)
  · show HermiteM.getV0 (HermiteM.setV1
        (HermiteM.setV0 leftS (HermiteM.getV0 parent)) vmid) = _
    rw [getV0_setV1]
    exact getV0_setV0 leftS _ hlL (by rw [hv0]; exact hlp0)
  · show HermiteM.getV1 (HermiteM.setV1
        (HermiteM.setV0 leftS (HermiteM.getV0 parent)) vmid) = _
    exact getV1_setV1 _ _ hlL (by rw [hvm]; exact hlp3)
  · show HermiteM.getV0 (HermiteM.setV1
        (HermiteM.setV0 rightS vmid) (HermiteM.getV1 parent)) = _
    rw [getV0_setV1]
    exact getV0_setV0 rightS _ hrL (by rw [hvm]; exact hrp0)
  · show HermiteM.getV1 (HermiteM.setV1
        (HermiteM.setV0 rightS vmid) (HermiteM.getV1 parent)) = _
    exact getV1_setV1 _ _ hrL (by rw [hv1]; exact hrp3)

/-- Witness for C4 on concrete one-dimensional pieces: the rescaled variant
halves the parent's `v0() = [3]` to `[3/2]`, the timeRange variant passes
it through unchanged. -/
theorem RecursiveHermite.recurse_children_velocities_witness :
    HermiteM.getV0 (RecursiveHermite.recurseChildren parentEx leftEx rightEx [4]).1 = [3 / 2]
    ∧ HermiteM.getV0 (RecursiveHermite.recurseChildrenF parentEx leftEx rightEx [4]).1 = [3] := by
  have h := RecursiveHermite.recurse_children_velocities parentEx leftEx rightEx [4] 1
    (by norm_num [leftEx]) (by norm_num [rightEx]) (by simp [leftEx])
    (by simp [rightEx]) (by simp [leftEx]) (by simp [rightEx])
    (by simp [parentEx, HermiteM.getV0, Vec.smul, Vec.sub])
    (by simp [parentEx, HermiteM.getV1, Vec.smul, Vec.sub]) (by simp)
  constructor
  · rw [h.1]
    norm_num [parentEx, HermiteM.getV0, Vec.smul, Vec.sub]
  · rw [h.2.2.2.2.1]
    norm_num [parentEx, HermiteM.getV0, Vec.smul, Vec.sub]

/-- Counterexample for C4 as stated: in the timeRange-preserving `recurse`
(recursive-hermite.cc, lines 566-592) the left child's `v0()` equals the
parent's `v0() = [3]`, not the claimed halved `[3/2]`. -/
theorem RecursiveHermite.recurse_children_fork_not_halved :
    HermiteM.getV0 (RecursiveHermite.recurseChildrenF parentEx leftEx rightEx [4]).1 = [3]
    ∧ Vec.smul (1 / 2) (HermiteM.getV0 parentEx) = [3 / 2]
    ∧ decide (([3] : Vec) = [3 / 2]) = false := by
  refine ⟨?_, ?_, by norm_num⟩
  · norm_num [RecursiveHermite.recurseChildrenF, parentEx, leftEx, rightEx,
      HermiteM.getV0, HermiteM.setV0, HermiteM.setV1, Vec.smul, Vec.sub]
  · norm_num [parentEx, HermiteM.getV0, Vec.smul, Vec.sub]

/-- C2: for a Hermite piece whose `hermiteLength` is at least the acceptance
threshold, after the two children are built: if either child's
`hermiteLength` exceeds `beta * parent.hermiteLength`, `recurse` returns
false; and if the left child fails or the contraction check failed, the
right child is never recursed into — the result does not depend on the
right subtree beyond its already-computed root length. -/
theorem RecursiveHermite.recurse_contraction_stop
    (beta thr len tl : ℚ) (q0 q2 q1 : Vec) (l r : HTree)
    (hlen : ¬ len < thr) :
    ((beta * len < HTree.len l ∨ beta * len < HTree.len r) →
        (RecursiveHermite.recurse beta thr (HTree.bis q0 q2 len tl q1 l r)).1 = false)
    ∧ ((beta * len < HTree.len l ∨ beta * len < HTree.len r ∨
          (RecursiveHermite.recurse beta thr l).1 = false) →
        ∀ r2 : HTree, HTree.len r2 = HTree.len r →
          RecursiveHermite.recurse beta thr (HTree.bis q0 q2 len tl q1 l r2)
            = RecursiveHermite.recurse beta thr (HTree.bis q0 q2 len tl q1 l r)) := by
  by_cases hl : beta * len < HTree.len l
  · have hrec : ∀ rr : HTree,
        RecursiveHermite.recurse beta thr (HTree.bis q0 q2 len tl q1 l rr) = (false, []) := by
      intro rr
      simp [RecursiveHermite.recurse, hlen, hl]
    exact ⟨fun _ => by rw [hrec r], fun _ r2 _ => by rw [hrec r2, hrec r]⟩
  · by_cases hlf : (RecursiveHermite.recurse beta thr l).1 = false
    · have hrec : ∀ rr : HTree,
          RecursiveHermite.recurse beta thr (HTree.bis q0 q2 len tl q1 l rr)
            = (false, (RecursiveHermite.recurse beta thr l).2) := by
        intro rr
        simp [RecursiveHermite.recurse, hlen, hl, hlf]
      constructor
      · intro _
        rw [hrec r]
      · intro _ r2 _
        rw [hrec r2, hrec r]
    · by_cases hr : beta * len < HTree.len r
      · have hrec : ∀ rr : HTree, HTree.len rr = HTree.len r →
            RecursiveHermite.recurse beta thr (HTree.bis q0 q2 len tl q1 l rr)
              = (false, (RecursiveHermite.recurse beta thr l).2) := by
          intro rr hrr
          simp [RecursiveHermite.recurse, hlen, hl, hlf, hrr, hr]
        constructor
        · intro _
          rw [hrec r rfl]
        · intro _ r2 h2
          rw [hrec r2 h2, hrec r rfl]
      · constructor
        · intro hcase
          rcases hcase with h | h
          · exact absurd h hl
          · exact absurd h hr
        · intro hcase
          rcases hcase with h | h | h
          · exact absurd h hl
          · exact absurd h hr
          · exact absurd h hlf

/-- Witness for C2: a parent of length 10 with threshold 1 and
`beta = 3/5`, whose left child has length `7 > 6 = beta * 10`: the branch
fails. -/
theorem RecursiveHermite.recurse_contraction_stop_witness :
    (RecursiveHermite.recurse (3 / 5) 1
        (HTree.bis [0] [1] 10 1 [2]
          (HTree.stop [0] [2] 7 (1 / 2)) (HTree.stop [2] [1] 2 (1 / 2)))).1 = false :=
  (RecursiveHermite.recurse_contraction_stop (3 / 5) 1 10 1 [0] [1] [2]
      (HTree.stop [0] [2] 7 (1 / 2)) (HTree.stop [2] [1] 2 (1 / 2))
      (by norm_num)).1
    (Or.inl (by norm_num [HTree.len]))

/-- C1: the acceptance threshold of `project` at recursive-hermite.cc line
130 is `2 * errorThreshold / M`, but the revised `project` at line 444
hard-codes the divisor `2`, ignoring `M`. With `M = 4` and
`errorThreshold = 1` the two variants give thresholds `1/2` and `1` and
diverge on a piece of `hermiteLength` `3/4`: the first subdivides (and
here fails to a degenerate prefix), the second accepts the piece
unchanged. -/
theorem RecursiveHermite.project_threshold_ignores_M :
    RecursiveHermite.acceptThr 4 1 = 1 / 2
    ∧ RecursiveHermite.acceptThrF 4 1 = 1
    ∧ RecursiveHermite.project 4 (3 / 4) c1path = (false, some (ResP.degen [0]))
    ∧ RecursiveHermite.projectF 4 (3 / 4) c1path = (true, some (ResP.vec [c1piece])) := by
  refine ⟨by norm_num [RecursiveHermite.acceptThr],
    by norm_num [RecursiveHermite.acceptThrF], ?_, ?_⟩
  · norm_num [RecursiveHermite.project, RecursiveHermite.acceptThr, c1path, c1piece,
      RecursiveHermite.projectLoop, RecursiveHermite.recurse, HTree.len]
  · norm_num [RecursiveHermite.projectF, RecursiveHermite.acceptThrF, c1path, c1piece,
      RecursiveHermite.projectLoop, HTree.len]

/-- C3: `Path::extract` computes the shift offsets for the attached
reparameterization but discards the `Shift::createWithCheck` result
(path.cc, line 216) and attaches an unshifted copy instead. For
`g(t) = 2 t + 1`, sub-interval `(1, 2)` and an `impl_extract` that
normalizes the extracted `paramRange` to `(0, 2)`, the returned path's
`paramRange` is `(1, 3)` — not the extracted parameter range `(0, 2)` —
whereas attaching the discarded shifted copy `Shift(g, 1, -3)` would
restore `(0, 2)`. -/
theorem Path.extract_drops_shift :
    (Path.extract egPath egExt (1, 2)).paramRange = (1, 3)
    ∧ (egExt (3, 5)).paramRange = (0, 2)
    ∧ (PathM.setTimeParam (egExt (3, 5))
        (Shift.createWithCheck egTP 1 (-3)) (0, 1)).paramRange = (0, 2)
    ∧ decide (((1 : ℚ), (3 : ℚ)) = ((0 : ℚ), (2 : ℚ))) = false := by
  refine ⟨?_, by norm_num [egExt], ?_, by norm_num⟩
  · norm_num [Path.extract, egPath, egExt, egTP, egTPF, PathM.setTimeParam,
      TP.value, Shift.createWithCheck, Shift.create]
  · norm_num [PathM.setTimeParam, Shift.createWithCheck, Shift.create, egTP,
      egTPF, TP.value, egExt]

/-- C10: on a plain (non-vector) path whose constraint set has a config
projector but whose end configuration violates the constraints,
`project` returns false without assigning `proj`, so `impl_apply` returns
failure with `proj` left null — contradicting its own `assert(proj)` and
the claimed non-null partial result. -/
theorem RecursiveHermite.impl_apply_leaves_proj_null :
    RecursiveHermite.impl_apply 2 (3 / 4) (PathIn.simple c10path) = (false, none) := by
  simp [RecursiveHermite.impl_apply, RecursiveHermite.project, c10path]
